import Mathlib

/-!
# Verification of the aqstat sensor-data merge and calibration engine

Shallow embedding of the core of the `aqstat` repository:

* `AQData.merge` (src/aqstat/aqdata.py, lines 166-203): union of two
  measurement tables with near-duplicate timestamp collapsing;
* `AQData.calibrate` (src/aqstat/aqdata.py, lines 45-65): PM calibration
  with the ratio-gating step;
* `AQMetaData.merge` / `AQMetaData.as_dict` / `AQMetaData.from_json`
  (src/aqstat/metadata.py): conflict-aware metadata merging and the JSON
  round trip;
* `parse_metadata_from_filename` (src/aqstat/parse.py, lines 128-210):
  filename identity parsing.

Timestamps are modelled as integers (seconds); measurement cells are
`Option ℚ` (`none` standing for a pandas missing value / NaN cell).
-/

namespace AQStat

/-! ## Measurement table model (`AQData.data`)

A table is a list of `(timestamp, row)` pairs; the `AQData` invariant keeps
it sorted ascending by timestamp.  The five data columns are those of
`AQData.data_columns = "temperature humidity pressure pm10 pm2_5"`. -/

abbrev Time := Int

structure Row where
  temperature : Option ℚ
  humidity : Option ℚ
  pressure : Option ℚ
  pm10 : Option ℚ
  pm2_5 : Option ℚ
deriving DecidableEq, Repr

/-- Ordering of table entries by timestamp (the pandas index order). -/
def timeLe (x y : Time × Row) : Prop := x.1 ≤ y.1

instance : DecidableRel timeLe := fun x y => inferInstanceAs (Decidable (x.1 ≤ y.1))

instance : IsTotal (Time × Row) timeLe := ⟨fun x y => Int.le_total x.1 y.1⟩

instance : IsTrans (Time × Row) timeLe := ⟨fun _ _ _ h h' => le_trans h h'⟩

/-- `data.append(other.data, sort=False).sort_index()`: concatenation of the
two tables followed by a sort on the timestamp index. -/
def sortByTime (l : List (Time × Row)) : List (Time × Row) :=
  List.insertionSort timeLe l

/-- `(data.index.diff().abs() > tolerance).cumsum()` as a grouping: split the
(sorted) list into maximal runs, starting a new run whenever the absolute
difference of consecutive timestamps exceeds `tol`.  The first row's diff is
`NaT`, whose comparison with the tolerance is false, so the first row always
opens group 0. -/
def groupByGaps (tol : Int) : List (Time × Row) → List (List (Time × Row))
  | [] => []
  | [x] => [[x]]
  | x :: y :: rest =>
    match groupByGaps tol (y :: rest) with
    | [] => [[x]]
    | g :: gs => if |y.1 - x.1| > tol then [x] :: g :: gs else (x :: g) :: gs

/-- The pandas `groupby(...).aggregate('first')` semantics for one column:
the first non-missing value of the group, in order (`GroupBy.first` skips
missing values). -/
def firstNonMissing : List (Option ℚ) → Option ℚ
  | [] => none
  | none :: rest => firstNonMissing rest
  | some v :: _ => some v

/-- Collapse one group to a single row, per column the first non-missing
value in sort order. -/
def collapseRow (g : List (Time × Row)) : Row where
  temperature := firstNonMissing (g.map fun x => x.2.temperature)
  humidity := firstNonMissing (g.map fun x => x.2.humidity)
  pressure := firstNonMissing (g.map fun x => x.2.pressure)
  pm10 := firstNonMissing (g.map fun x => x.2.pm10)
  pm2_5 := firstNonMissing (g.map fun x => x.2.pm2_5)

/-- Collapse one group to its output `(timestamp, row)` pair: the `'index'`
column is also aggregated with `'first'`, and timestamps are never missing,
so the group's first timestamp becomes the output index. -/
def collapseGroup (g : List (Time × Row)) : Time × Row :=
  ((g.head?.map Prod.fst).getD 0, collapseRow g)

/-- `AQData.merge` on the measurement tables (src/aqstat/aqdata.py, lines
185-192): append `other` to `self`, sort by timestamp, group rows whose
consecutive timestamp differences stay within `tol`, and aggregate each
group with the first non-missing value per column, indexed by the group's
first timestamp. -/
def mergeData (a b : List (Time × Row)) (tol : Int) : List (Time × Row) :=
  (groupByGaps tol (sortByTime (a ++ b))).map collapseGroup

/-- A row with only temperature and humidity set (e.g. a DHT22 file). -/
def rowTH (vt vh : ℚ) : Row := ⟨some vt, some vh, none, none, none⟩

/-- A row with only pm10 and pm2_5 set (e.g. an SDS011 file). -/
def rowPM (vp vq : ℚ) : Row := ⟨none, none, none, some vp, some vq⟩

/-- A row with only temperature set. -/
def rowT (v : ℚ) : Row := ⟨some v, none, none, none, none⟩

/-! ### Structural lemmas about the grouping step -/

theorem groupByGaps_flatten (tol : Int) : ∀ l : List (Time × Row),
    (groupByGaps tol l).flatten = l
  | [] => rfl
  | [x] => rfl
  | x :: y :: rest => by
    have ih := groupByGaps_flatten tol (y :: rest)
    rw [groupByGaps]
    cases h : groupByGaps tol (y :: rest) with
    | nil => rw [h] at ih; simp at ih
    | cons g gs =>
      rw [h] at ih
      show (if |y.1 - x.1| > tol then [x] :: g :: gs else (x :: g) :: gs).flatten
        = x :: y :: rest
      by_cases hc : |y.1 - x.1| > tol
      · rw [if_pos hc]
        simp only [List.flatten_cons] at ih ⊢
        rw [List.singleton_append, ih]
      · rw [if_neg hc]
        simp only [List.flatten_cons] at ih ⊢
        rw [List.cons_append, ih]

theorem mem_groupByGaps_ne_nil (tol : Int) : ∀ l : List (Time × Row),
    ∀ g ∈ groupByGaps tol l, g ≠ []
  | [] => by simp [groupByGaps]
  | [x] => by simp [groupByGaps]
  | x :: y :: rest => by
    have ih := mem_groupByGaps_ne_nil tol (y :: rest)
    rw [groupByGaps]
    cases h : groupByGaps tol (y :: rest) with
    | nil => simp
    | cons g gs =>
      rw [h] at ih
      show ∀ g' ∈ (if |y.1 - x.1| > tol then [x] :: g :: gs else (x :: g) :: gs), g' ≠ []
      by_cases hc : |y.1 - x.1| > tol
      · rw [if_pos hc]
        intro g' hg'
        rw [List.mem_cons] at hg'
        rcases hg' with rfl | hg'
        · simp
        · exact ih g' hg'
      · rw [if_neg hc]
        intro g' hg'
        rw [List.mem_cons] at hg'
        rcases hg' with rfl | hg'
        · simp
        · exact ih g' (List.mem_cons_of_mem _ hg')

/-- Collapsing a list of nonempty groups whose flattening is sorted gives a
list sorted by timestamp. -/
theorem sorted_map_collapseGroup (gs : List (List (Time × Row)))
    (hne : ∀ g ∈ gs, g ≠ []) (hs : List.Sorted timeLe gs.flatten) :
    List.Sorted timeLe (gs.map collapseGroup) := by
  induction gs with
  | nil => simp
  | cons g gs ih =>
    rw [List.flatten_cons] at hs
    have hs' : List.Pairwise timeLe (g ++ gs.flatten) := hs
    rw [List.pairwise_append] at hs'
    obtain ⟨hg, hrest, hcross⟩ := hs'
    rw [List.map_cons, List.sorted_cons]
    refine ⟨?_, ih (fun g' hg' => hne g' (List.mem_cons_of_mem _ hg')) hrest⟩
    intro b hb
    rw [List.mem_map] at hb
    obtain ⟨g', hg', rfl⟩ := hb
    obtain ⟨z, zs, rfl⟩ := List.exists_cons_of_ne_nil (hne g (List.mem_cons_self _ _))
    obtain ⟨z', zs', rfl⟩ :=
      List.exists_cons_of_ne_nil (hne g' (List.mem_cons_of_mem _ hg'))
    have hz' : z' ∈ gs.flatten :=
      List.mem_flatten.2 ⟨z' :: zs', hg', List.mem_cons_self _ _⟩
    exact hcross z (List.mem_cons_self _ _) z' hz'

/-- C2: after any `SensorRecord.merge` (for every pair of input tables and
every tolerance), the resulting measurement table's timestamps are
non-decreasing. -/
theorem merge_sorted (a b : List (Time × Row)) (tol : Int) :
    List.Sorted (· ≤ ·) ((mergeData a b tol).map Prod.fst) := by
  have hs : List.Sorted timeLe (sortByTime (a ++ b)) :=
    List.sorted_insertionSort timeLe (a ++ b)
  have hne := mem_groupByGaps_ne_nil tol (sortByTime (a ++ b))
  have hj := groupByGaps_flatten tol (sortByTime (a ++ b))
  have hcoll : List.Sorted timeLe
      ((groupByGaps tol (sortByTime (a ++ b))).map collapseGroup) :=
    sorted_map_collapseGroup _ hne (by rw [hj]; exact hs)
  exact List.Pairwise.map Prod.fst (fun u v h => h) hcoll

/-- C10: in `SensorRecord.merge`, every collapsed group's output row is
indexed by the earliest timestamp of its group (a timestamp that occurs in
the group), and no timestamp appears in the merged table that was not
present in one of the two input tables. -/
theorem merge_group_min_time (a b : List (Time × Row)) (tol : Int) :
    (∀ g ∈ groupByGaps tol (sortByTime (a ++ b)),
      (collapseGroup g).1 ∈ g.map Prod.fst ∧
      ∀ x ∈ g, (collapseGroup g).1 ≤ x.1) ∧
    (∀ t ∈ (mergeData a b tol).map Prod.fst, t ∈ (a ++ b).map Prod.fst) := by
  have hs : List.Sorted timeLe (sortByTime (a ++ b)) :=
    List.sorted_insertionSort timeLe (a ++ b)
  have hne := mem_groupByGaps_ne_nil tol (sortByTime (a ++ b))
  have hj := groupByGaps_flatten tol (sortByTime (a ++ b))
  constructor
  · intro g hg
    obtain ⟨z, zs, rfl⟩ := List.exists_cons_of_ne_nil (hne g hg)
    have hsub : (z :: zs).Sublist (sortByTime (a ++ b)) := by
      rw [← hj]; exact List.sublist_flatten_of_mem hg
    have hgs : List.Pairwise timeLe (z :: zs) := List.Pairwise.sublist hsub hs
    rw [List.pairwise_cons] at hgs
    constructor
    · show z.1 ∈ (z :: zs).map Prod.fst
      exact List.mem_map_of_mem Prod.fst (List.mem_cons_self _ _)
    · intro x hx
      rw [List.mem_cons] at hx
      rcases hx with rfl | hx
      · exact le_refl _
      · exact hgs.1 x hx
  · intro t ht
    rw [List.mem_map] at ht
    obtain ⟨p, hp, rfl⟩ := ht
    rw [mergeData, List.mem_map] at hp
    obtain ⟨g, hg, rfl⟩ := hp
    obtain ⟨z, zs, rfl⟩ := List.exists_cons_of_ne_nil (hne g hg)
    have hz : z ∈ sortByTime (a ++ b) := by
      rw [← hj]
      exact List.mem_flatten.2 ⟨z :: zs, hg, List.mem_cons_self _ _⟩
    have hz' : z ∈ a ++ b := ((List.perm_insertionSort timeLe (a ++ b)).mem_iff).1 hz
    show z.1 ∈ (a ++ b).map Prod.fst
    exact List.mem_map_of_mem Prod.fst hz'

/-- Witness for C10 at a concrete input: tables `[(0, rowT 1)]` and
`[(2, rowT 2)]` with tolerance 5 produce the single group
`[(0, rowT 1), (2, rowT 2)]`. -/
theorem merge_group_min_time_witness :
    (collapseGroup [((0 : Time), rowT 1), ((2 : Time), rowT 2)]).1 ∈
      ([((0 : Time), rowT 1), ((2 : Time), rowT 2)].map Prod.fst) ∧
    ((0 : Time) ∈ (([((0 : Time), rowT 1)] ++ [((2 : Time), rowT 2)]).map Prod.fst)) := by
  constructor
  · exact ((merge_group_min_time [((0 : Time), rowT 1)] [((2 : Time), rowT 2)] 5).1
      [((0 : Time), rowT 1), ((2 : Time), rowT 2)] (by decide)).1
  · exact (merge_group_min_time [((0 : Time), rowT 1)] [((2 : Time), rowT 2)] 5).2
      0 (by decide)

/-- If every consecutive gap of `l` exceeds the tolerance, every row forms
its own group. -/
theorem groupByGaps_of_gaps_gt (tol : Int) : ∀ l : List (Time × Row),
    l.Chain' (fun x y => y.1 - x.1 > tol) →
    groupByGaps tol l = l.map (fun x => [x])
  | [], _ => rfl
  | [x], _ => rfl
  | x :: y :: rest, h => by
    rw [List.chain'_cons] at h
    have ih := groupByGaps_of_gaps_gt tol (y :: rest) h.2
    rw [groupByGaps, ih]
    have hc : |y.1 - x.1| > tol := lt_of_lt_of_le h.1 (le_abs_self _)
    rw [List.map_cons]
    show (if |y.1 - x.1| > tol then [x] :: [y] :: rest.map (fun x => [x])
      else (x :: [y]) :: rest.map (fun x => [x])) = [x] :: [y] :: rest.map (fun x => [x])
    rw [if_pos hc]

theorem firstNonMissing_singleton (o : Option ℚ) : firstNonMissing [o] = o := by
  cases o <;> rfl

theorem collapseGroup_singleton (x : Time × Row) : collapseGroup [x] = x := by
  show (x.1, collapseRow [x]) = x
  have : collapseRow [x] = x.2 := by
    show Row.mk (firstNonMissing [x.2.temperature]) (firstNonMissing [x.2.humidity])
      (firstNonMissing [x.2.pressure]) (firstNonMissing [x.2.pm10])
      (firstNonMissing [x.2.pm2_5]) = x.2
    rw [firstNonMissing_singleton, firstNonMissing_singleton, firstNonMissing_singleton,
      firstNonMissing_singleton, firstNonMissing_singleton]
  rw [this]

/-- C7 (amended): merging a table with an empty `other` is a no-op union
provided the table is sorted and each consecutive pair of its timestamps is
more than the tolerance apart; the resulting table equals the input table,
every row, timestamp and value preserved. -/
theorem merge_empty_noop (s : List (Time × Row)) (tol : Int)
    (hs : List.Sorted timeLe s)
    (hgap : s.Chain' (fun x y => y.1 - x.1 > tol)) :
    mergeData s [] tol = s := by
  rw [mergeData, List.append_nil, sortByTime, List.Sorted.insertionSort_eq hs,
    groupByGaps_of_gaps_gt tol s hgap, List.map_map]
  have : (collapseGroup ∘ fun x => [x]) = id := by
    funext x
    exact collapseGroup_singleton x
  rw [this, List.map_id]

/-- Witness for C7 (amended) at a concrete input. -/
theorem merge_empty_noop_witness :
    mergeData [((0 : Time), rowT 1), ((10 : Time), rowT 2)] [] 5
      = [((0 : Time), rowT 1), ((10 : Time), rowT 2)] :=
  merge_empty_noop [((0 : Time), rowT 1), ((10 : Time), rowT 2)] 5
    (by decide)
    (by rw [List.chain'_cons]
        exact ⟨by decide, List.chain'_singleton _⟩)

/-- Merging two single-row tables whose timestamps are in order and within
the tolerance collapses them into one group. -/
theorem mergeData_two_rows (x y : Time × Row) (tol : Int)
    (hle : timeLe x y) (hclose : ¬(|y.1 - x.1| > tol)) :
    mergeData [x] [y] tol = [(x.1, collapseRow [x, y])] := by
  have hsort : sortByTime ([x] ++ [y]) = [x, y] := by
    show (if timeLe x y then x :: [y] else y :: List.orderedInsert timeLe x []) = [x, y]
    rw [if_pos hle]
  rw [mergeData, hsort]
  have hgroup : groupByGaps tol [x, y] = [[x, y]] := by
    show (if |y.1 - x.1| > tol then [x] :: [y] :: [] else (x :: [y]) :: []) = [[x, y]]
    rw [if_neg hclose]
  rw [hgroup]
  rfl

/-- C1: merging two single-row tables whose timestamps are 2 seconds apart
(default tolerance 5 seconds) with disjoint non-missing columns — one row
carrying temperature and humidity, the other pm10 and pm2_5 — yields exactly
one row, indexed by the earlier timestamp, in which all four values are
populated; and when both rows contribute a non-missing value to the same
column, the earlier one is silently kept. -/
theorem merge_near_duplicate_collapse (t : Time) (vt vh vp vq v1 v2 : ℚ) :
    mergeData [(t, rowTH vt vh)] [(t + 2, rowPM vp vq)] 5
      = [(t, ⟨some vt, some vh, none, some vp, some vq⟩)] ∧
    mergeData [(t, rowT v1)] [(t + 2, rowT v2)] 5 = [(t, rowT v1)] := by
  have hle : t ≤ t + 2 := le_add_of_nonneg_right (by norm_num)
  have h2 : ¬(|t + 2 - t| > (5 : Int)) := by
    rw [show t + 2 - t = (2 : Int) from by ring]
    decide
  constructor
  · rw [mergeData_two_rows (t, rowTH vt vh) (t + 2, rowPM vp vq) 5 hle h2]
    rfl
  · rw [mergeData_two_rows (t, rowT v1) (t + 2, rowT v2) 5 hle h2]
    rfl

/-- Counterexample to C7 as stated: merging a table having two rows only
2 seconds apart with an empty `other` at the default tolerance of 5 seconds
collapses the two rows into one, so the result is not the unchanged input
table. -/
theorem merge_empty_not_noop :
    mergeData [((0 : Time), rowT 1), ((2 : Time), rowT 2)] [] 5
      ≠ [((0 : Time), rowT 1), ((2 : Time), rowT 2)] := by
  decide

/-! ## Metadata model (`AQMetaData`, src/aqstat/metadata.py)

Location components hold dynamically typed Python values (the constructor
default is the empty string, JSON may supply numbers, strings or null, and
a missing coordinate may be a float NaN), modelled by `Val`.  The
description field may be a string or — through the parsing slip on line 88
of src/aqstat/metadata.py — a tuple, modelled by `Desc`. -/

/-- A Python value held in a GPS coordinate field. -/
inductive Val where
  | none
  | nan
  | num (q : ℚ)
  | str (s : String)
deriving DecidableEq, Repr

/-- Python `==` on such values: `None == None` holds, NaN compares unequal
to everything (including NaN itself), numbers and strings compare by value,
and cross-type comparisons are false. -/
def pyEq : Val → Val → Bool
  | Val.none, Val.none => true
  | Val.num a, Val.num b => a == b
  | Val.str a, Val.str b => a == b
  | _, _ => false

/-- The membership test `v in [None, float('nan')]` of
src/aqstat/metadata.py lines 153-156: Python `in` compares with `==` (the
fresh `float('nan')` object also fails the identity shortcut), and since
`x == float('nan')` is false for every `x`, the test succeeds only for
`None`. -/
def inNoneNan (v : Val) : Bool := pyEq v Val.none || pyEq v Val.nan

/-- One location component of `AQMetaData.merge`:
`self.location.lat if self.location.lat not in [None, float('nan')] else
other.location.lat` (and likewise for lon, amsl, agl). -/
def mergeLocField (s o : Val) : Val := if inNoneNan s then o else s

structure GPSCoordinate where
  lat : Val
  lon : Val
  amsl : Val
  agl : Val
deriving DecidableEq, Repr

structure ContactInfo where
  name : String
  email : String
  phone : String
deriving DecidableEq, Repr

structure SensorInfo where
  name : String
  type : String
  sensor_id : Option Int
deriving DecidableEq, Repr

/-- The description field as a dynamically typed Python value: a string, or
the one-element tuple `(d,)` that the trailing comma of
src/aqstat/metadata.py line 88 produces. -/
inductive Desc where
  | str (s : String)
  | tup1 (d : Desc)
deriving DecidableEq, Repr

/-- Python truthiness of a description value: `""` is falsy, a one-element
tuple is truthy. -/
def Desc.truthy : Desc → Bool
  | .str s => !(s == "")
  | .tup1 _ => true

/-- Python `a or b` on strings: the empty string is falsy. -/
def pyOrStr (a b : String) : String := if a = "" then b else a

/-- Python `a or b` on a nullable integer id: `None` and `0` are falsy. -/
def pyOrInt (a b : Option Int) : Option Int :=
  match a with
  | Option.none => b
  | some n => if n = 0 then b else some n

/-- Python `a or b` on description values. -/
def pyOrDesc (a b : Desc) : Desc := if a.truthy then a else b

/-- `AQMetaData` (src/aqstat/metadata.py, lines 11-23).  The sensors dict is
an insertion-ordered association list from logical channel name to
`SensorInfo`. -/
structure AQMetaData where
  name : String
  chip_id : Option Int
  sensors : List (String × SensorInfo)
  description : Desc
  location : GPSCoordinate
  owner : ContactInfo
  merged : Bool
deriving DecidableEq, Repr

/-- The default-constructed `AQMetaData()` (all constructor defaults of
lines 14-23: empty name/description, null chip id, no sensors, empty-string
coordinates and owner fields, `merged = False`). -/
def AQMetaData.empty : AQMetaData :=
  { name := "", chip_id := Option.none, sensors := [], description := Desc.str "",
    location := ⟨Val.str "", Val.str "", Val.str "", Val.str ""⟩,
    owner := ⟨"", "", ""⟩, merged := false }

/-- `sensors[key] = value` on an insertion-ordered dict whose `key` is
already present: replace the (unique) entry holding that key, keeping its
position. -/
def updateFirst (k : String) (v : SensorInfo) :
    List (String × SensorInfo) → List (String × SensorInfo)
  | [] => []
  | (k', v') :: rest =>
    if k' = k then (k, v) :: rest else (k', v') :: updateFirst k v rest

/-- The sensor-merging loop of `AQMetaData.merge` (src/aqstat/metadata.py,
lines 134-150): iterate over `other`'s channels; a channel absent from the
accumulated dict is adopted (appended), a present one is rebuilt with
`name=key`, `type` resolved by Python `or`, and the per-channel sensor id
resolved by `or` with a conflict check mirroring the chip-id one.  The
`flag` argument threads the receiver's `merged` flag. -/
def mergeSensorsAux (acc : List (String × SensorInfo)) (flag : Bool) :
    List (String × SensorInfo) → List (String × SensorInfo) × Bool
  | [] => (acc, flag)
  | (k, osi) :: rest =>
    match acc.lookup k with
    | some si =>
      let sid := pyOrInt si.sensor_id osi.sensor_id
      let conflict := osi.sensor_id.isSome && decide (sid ≠ osi.sensor_id)
      mergeSensorsAux (updateFirst k ⟨k, pyOrStr si.type osi.type, sid⟩ acc)
        (flag || conflict) rest
    | Option.none => mergeSensorsAux (acc ++ [(k, osi)]) flag rest

/-- `AQMetaData.merge` (src/aqstat/metadata.py, lines 112-183) with
`inplace=False`.  The result pairs the freshly constructed metadata object
(whose own `merged` flag is `False`, set by the constructor) with the
receiver's `merged` flag after the call: the code performs
`self.merged = True` on each detected chip-id or sensor-id conflict. -/
def AQMetaData.merge (s o : AQMetaData) : AQMetaData × Bool :=
  let chip_id := pyOrInt s.chip_id o.chip_id
  let chipConflict := o.chip_id.isSome && decide (chip_id ≠ o.chip_id)
  let sf := mergeSensorsAux s.sensors (s.merged || chipConflict) o.sensors
  ({ name := pyOrStr s.name o.name
     chip_id := chip_id
     sensors := sf.1
     description := pyOrDesc s.description o.description
     location := ⟨mergeLocField s.location.lat o.location.lat,
                  mergeLocField s.location.lon o.location.lon,
                  mergeLocField s.location.amsl o.location.amsl,
                  mergeLocField s.location.agl o.location.agl⟩
     owner := ⟨pyOrStr s.owner.name o.owner.name,
               pyOrStr s.owner.email o.owner.email,
               pyOrStr s.owner.phone o.owner.phone⟩
     merged := false }, sf.2)

/-! ### Helper lemmas for the metadata merge -/

theorem pyOrInt_self (a : Option Int) : pyOrInt a a = a := by
  cases a with
  | none => rfl
  | some n =>
    by_cases h : n = 0
    · simp [pyOrInt, h]
    · simp [pyOrInt, h]

theorem pyOrStr_self (a : String) : pyOrStr a a = a := by
  by_cases h : a = ""
  · simp [pyOrStr, h]
  · simp [pyOrStr, h]

theorem pyOrDesc_self (a : Desc) : pyOrDesc a a = a := by
  unfold pyOrDesc
  by_cases h : a.truthy <;> simp [h]

theorem mergeLocField_self (v : Val) : mergeLocField v v = v := by
  unfold mergeLocField
  by_cases h : inNoneNan v <;> simp [h]

/-- Once the receiver's `merged` flag is set, the sensor loop keeps it
set. -/
theorem mergeSensorsAux_flag_true (acc : List (String × SensorInfo)) :
    ∀ l, (mergeSensorsAux acc true l).2 = true := by
  intro l
  induction l generalizing acc with
  | nil => rfl
  | cons p rest ih =>
    obtain ⟨k, osi⟩ := p
    rw [mergeSensorsAux]
    cases acc.lookup k with
    | some si => exact ih _
    | none => exact ih _

theorem lookup_of_mem_nodup {l : List (String × SensorInfo)} {k : String}
    {v : SensorInfo} (hnd : (l.map Prod.fst).Nodup) (hmem : (k, v) ∈ l) :
    l.lookup k = some v := by
  induction l with
  | nil => cases hmem
  | cons p rest ih =>
    obtain ⟨k', v'⟩ := p
    rw [List.map_cons, List.nodup_cons] at hnd
    rw [List.mem_cons] at hmem
    rcases hmem with h | hmem
    · rw [← h]
      simp [List.lookup]
    · have hk : k ∈ rest.map Prod.fst := List.mem_map_of_mem Prod.fst hmem
      have hfalse : (k == k') = false := by
        rw [beq_eq_false_iff_ne]
        intro hkk
        exact hnd.1 (hkk ▸ hk)
      rw [List.lookup, hfalse]
      exact ih hnd.2 hmem

/-- Replacing the entry that `lookup` already returns leaves the dict
unchanged. -/
theorem updateFirst_self {l : List (String × SensorInfo)} {k : String}
    {v : SensorInfo} (h : l.lookup k = some v) : updateFirst k v l = l := by
  induction l with
  | nil => rfl
  | cons p rest ih =>
    obtain ⟨k', v'⟩ := p
    rw [List.lookup] at h
    cases hb : (k == k') with
    | true =>
      rw [hb] at h
      have hv : v' = v := Option.some_inj.1 h
      have hk' : k' = k := (eq_of_beq hb).symm
      simp only [updateFirst]
      rw [if_pos hk', hk', hv]
    | false =>
      rw [hb] at h
      have h' : List.lookup k rest = some v := h
      have hk' : ¬(k' = k) := fun hkk => (ne_of_beq_false hb) hkk.symm
      simp only [updateFirst]
      rw [if_neg hk', ih h']

/-- Merging a sensor dict into itself entry by entry is the identity and
raises no conflict, provided each entry stores its key as its name and the
dict state resolves each processed key to its own descriptor. -/
theorem mergeSensorsAux_self (acc : List (String × SensorInfo)) :
    ∀ l, (∀ p ∈ l, p.2.name = p.1) → (∀ p ∈ l, acc.lookup p.1 = some p.2) →
    mergeSensorsAux acc false l = (acc, false) := by
  intro l
  induction l generalizing acc with
  | nil => exact fun _ _ => rfl
  | cons p rest ih =>
    intro hn hl
    obtain ⟨k, osi⟩ := p
    have hlk : acc.lookup k = some osi := hl (k, osi) (List.mem_cons_self _ _)
    rw [mergeSensorsAux, hlk]
    have hsid : pyOrInt osi.sensor_id osi.sensor_id = osi.sensor_id :=
      pyOrInt_self _
    have hconf : (osi.sensor_id.isSome &&
        decide (pyOrInt osi.sensor_id osi.sensor_id ≠ osi.sensor_id)) = false := by
      rw [hsid]
      simp
    have hname : osi.name = k := hn (k, osi) (List.mem_cons_self _ _)
    have hsi : (⟨k, pyOrStr osi.type osi.type,
        pyOrInt osi.sensor_id osi.sensor_id⟩ : SensorInfo) = osi := by
      rw [hsid, pyOrStr_self, ← hname]
    show mergeSensorsAux
        (updateFirst k ⟨k, pyOrStr osi.type osi.type,
          pyOrInt osi.sensor_id osi.sensor_id⟩ acc)
        (false || (osi.sensor_id.isSome &&
          decide (pyOrInt osi.sensor_id osi.sensor_id ≠ osi.sensor_id))) rest
      = (acc, false)
    rw [hsi, hconf, Bool.or_false, updateFirst_self hlk]
    exact ih acc (fun q hq => hn q (List.mem_cons_of_mem _ hq))
      (fun q hq => hl q (List.mem_cons_of_mem _ hq))

/-- C3 (amended): when both chip ids are non-null, unequal, and the
receiver's id is nonzero (truthy), `AQMetaData.merge` does not raise: it
returns a metadata keeping the receiver's id, records the conflict by
setting the merge-conflict flag on the receiver (`self.merged = True`),
while the returned metadata object's own flag is freshly `False`. -/
theorem metadata_merge_id_conflict (s o : AQMetaData) (n m : Int)
    (hs : s.chip_id = some n) (hn : n ≠ 0) (ho : o.chip_id = some m)
    (hnm : n ≠ m) :
    (s.merge o).1.chip_id = some n ∧ (s.merge o).2 = true ∧
    (s.merge o).1.merged = false := by
  have hor : pyOrInt s.chip_id o.chip_id = some n := by
    rw [hs, pyOrInt, if_neg hn]
  have hconf : (o.chip_id.isSome &&
      decide (pyOrInt s.chip_id o.chip_id ≠ o.chip_id)) = true := by
    rw [hor, ho]
    simp
    intro h
    exact hnm h
  refine ⟨?_, ?_, rfl⟩
  · show pyOrInt s.chip_id o.chip_id = some n
    exact hor
  · show (mergeSensorsAux s.sensors
      (s.merged || (o.chip_id.isSome &&
        decide (pyOrInt s.chip_id o.chip_id ≠ o.chip_id))) o.sensors).2 = true
    rw [hconf, Bool.or_true]
    exact mergeSensorsAux_flag_true s.sensors o.sensors

/-- Witness for C3 (amended) at chip ids 1 and 2. -/
theorem metadata_merge_id_conflict_witness :
    (({ AQMetaData.empty with chip_id := some 1 }).merge
        { AQMetaData.empty with chip_id := some 2 }).1.chip_id = some 1 ∧
    (({ AQMetaData.empty with chip_id := some 1 }).merge
        { AQMetaData.empty with chip_id := some 2 }).2 = true ∧
    (({ AQMetaData.empty with chip_id := some 1 }).merge
        { AQMetaData.empty with chip_id := some 2 }).1.merged = false :=
  metadata_merge_id_conflict _ _ 1 2 rfl (by decide) rfl (by decide)

/-- Counterexample to C3 as stated: the conflict is not recorded on the
metadata object returned by the merge — its flag is freshly `False`
(`self.merged = True` marks only the receiver); moreover a receiver id of
`0` is falsy in Python, so `self.id or other.id` adopts the other id rather
than keeping the receiver's. -/
theorem metadata_merge_conflict_not_on_result :
    (({ AQMetaData.empty with chip_id := some 1 }).merge
        { AQMetaData.empty with chip_id := some 2 }).1.merged = false ∧
    (({ AQMetaData.empty with chip_id := some 0 }).merge
        { AQMetaData.empty with chip_id := some 5 }).1.chip_id = some 5 := by
  decide

/-- C4: evaluation of the location merge at the failing input.  The
membership test `x in [None, float('nan')]` never matches NaN (NaN compares
unequal even to itself), so a NaN latitude in `self` is kept instead of
falling back to `other`'s number; the null fallback does work. -/
theorem metadata_merge_nan_latitude_kept :
    (({ AQMetaData.empty with
          location := ⟨Val.nan, Val.str "", Val.str "", Val.str ""⟩ }).merge
        { AQMetaData.empty with
          location := ⟨Val.num 1, Val.str "", Val.str "", Val.str ""⟩ }).1.location.lat
      = Val.nan ∧
    (({ AQMetaData.empty with
          location := ⟨Val.none, Val.str "", Val.str "", Val.str ""⟩ }).merge
        { AQMetaData.empty with
          location := ⟨Val.num 1, Val.str "", Val.str "", Val.str ""⟩ }).1.location.lat
      = Val.num 1 := by
  decide

/-- C6 (amended): for every metadata value `a` satisfying the sensor-dict
invariants (keys unique, each descriptor's stored name equal to its key)
whose merge-conflict flag is unset, `merge(a, a)` returns `a` itself,
field for field, and sets no conflict flag (neither on the result nor on
the receiver). -/
theorem metadata_merge_idempotent (a : AQMetaData)
    (hname : ∀ p ∈ a.sensors, p.2.name = p.1)
    (hnd : (a.sensors.map Prod.fst).Nodup)
    (hm : a.merged = false) :
    a.merge a = (a, false) := by
  obtain ⟨nm, ci, se, de, lo, ow, mg⟩ := a
  obtain ⟨la, lon, ams, ag⟩ := lo
  obtain ⟨onm, oem, oph⟩ := ow
  simp only at hname hnd hm
  subst hm
  have hconf : ((ci.isSome && decide (pyOrInt ci ci ≠ ci))) = false := by
    rw [pyOrInt_self]
    simp
  show ((⟨pyOrStr nm nm, pyOrInt ci ci,
      (mergeSensorsAux se (false || (ci.isSome && decide (pyOrInt ci ci ≠ ci))) se).1,
      pyOrDesc de de,
      ⟨mergeLocField la la, mergeLocField lon lon,
       mergeLocField ams ams, mergeLocField ag ag⟩,
      ⟨pyOrStr onm onm, pyOrStr oem oem, pyOrStr oph oph⟩, false⟩ : AQMetaData),
    (mergeSensorsAux se (false || (ci.isSome && decide (pyOrInt ci ci ≠ ci))) se).2)
    = ((⟨nm, ci, se, de, ⟨la, lon, ams, ag⟩, ⟨onm, oem, oph⟩, false⟩ : AQMetaData), false)
  rw [hconf, Bool.or_false]
  have hsens : mergeSensorsAux se false se = (se, false) :=
    mergeSensorsAux_self se se hname
      (fun p hp => lookup_of_mem_nodup hnd (by rw [show (p.1, p.2) = p from rfl]; exact hp))
  rw [hsens, pyOrStr_self, pyOrStr_self, pyOrStr_self, pyOrStr_self,
    pyOrInt_self, pyOrDesc_self, mergeLocField_self, mergeLocField_self,
    mergeLocField_self, mergeLocField_self]

/-- Witness for C6 (amended) at a metadata value carrying one SDS011
sensor. -/
theorem metadata_merge_idempotent_witness :
    ({ AQMetaData.empty with
        sensors := [("pm10", ⟨"pm10", "SDS011", some 35233⟩)] }).merge
      { AQMetaData.empty with
        sensors := [("pm10", ⟨"pm10", "SDS011", some 35233⟩)] }
    = ({ AQMetaData.empty with
          sensors := [("pm10", ⟨"pm10", "SDS011", some 35233⟩)] }, false) :=
  metadata_merge_idempotent _ (by decide) (by decide) rfl

/-- Counterexample to C6 as stated: `merge(a, a)` is not equal to `a` for
every `a`.  The returned object's `merged` flag is always freshly `False`,
so a metadata whose flag is set is not reproduced; and the sensor loop
rebuilds each descriptor with `name=key`, so a descriptor whose stored name
differs from its dict key is altered. -/
theorem metadata_merge_not_idempotent :
    (({ AQMetaData.empty with merged := true }).merge
        { AQMetaData.empty with merged := true }).1
      ≠ { AQMetaData.empty with merged := true } ∧
    (({ AQMetaData.empty with
          sensors := [("pm10", ⟨"foo", "SDS011", some 1⟩)] }).merge
        { AQMetaData.empty with
          sensors := [("pm10", ⟨"foo", "SDS011", some 1⟩)] }).1
      ≠ { AQMetaData.empty with
          sensors := [("pm10", ⟨"foo", "SDS011", some 1⟩)] } := by
  decide

/-! ### JSON round trip (`as_dict` / `from_json`) -/

/-- The dictionary written by `AQMetaData.as_dict` (src/aqstat/metadata.py,
lines 32-58) and read back by `AQMetaData.from_json`: it carries name,
chip_id, the sensors dict (each entry with name, type, sensor_id),
description, location and owner — and no entry for the `merged` flag. -/
structure MetaDict where
  name : String
  chip_id : Option Int
  sensors : List (String × SensorInfo)
  description : Desc
  location : GPSCoordinate
  owner : ContactInfo
deriving DecidableEq, Repr

/-- `AQMetaData.as_dict` (src/aqstat/metadata.py, lines 32-58): every field
except `merged` is copied into the dictionary. -/
def AQMetaData.as_dict (m : AQMetaData) : MetaDict :=
  { name := m.name
    chip_id := m.chip_id
    sensors := m.sensors.map (fun p => (p.1, ⟨p.2.name, p.2.type, p.2.sensor_id⟩))
    description := m.description
    location := m.location
    owner := m.owner }

/-- The reconstruction performed by `AQMetaData.from_json`
(src/aqstat/metadata.py, lines 60-110) on a parsed dictionary: sensors are
rebuilt with `name=key`, the trailing comma of line 88
(`description = metadata["description"],`) wraps the description in a
one-element tuple, and the `merged` flag is not read at all, so the
constructor leaves it `False`. -/
def AQMetaData.from_dict (d : MetaDict) : AQMetaData :=
  { name := d.name
    chip_id := d.chip_id
    sensors := d.sensors.map (fun p => (p.1, ⟨p.1, p.2.type, p.2.sensor_id⟩))
    description := Desc.tup1 d.description
    location := d.location
    owner := d.owner
    merged := false }

/-- C8: evaluation of the save/load round trip at the failing input.  A
metadata with description `"abc"` and a set merge-conflict flag does not
come back equal field for field: the description is reloaded as the
one-element tuple `("abc",)` and the flag is dropped (reset to `False`), so
the round trip is not lossless. -/
theorem metadata_round_trip_lossy :
    (AQMetaData.from_dict (AQMetaData.as_dict
        { AQMetaData.empty with description := Desc.str "abc", merged := true })).description
      = Desc.tup1 (Desc.str "abc") ∧
    (AQMetaData.from_dict (AQMetaData.as_dict
        { AQMetaData.empty with description := Desc.str "abc", merged := true })).merged
      = false ∧
    AQMetaData.from_dict (AQMetaData.as_dict
        { AQMetaData.empty with description := Desc.str "abc", merged := true })
      ≠ { AQMetaData.empty with description := Desc.str "abc", merged := true } := by
  decide

/-! ## Calibration (`AQData.calibrate`, src/aqstat/aqdata.py lines 45-65) -/

/-- A float cell of a derived pandas column: missing/NaN, an infinity, or a
finite value. -/
inductive Cell where
  | undef
  | pinf
  | ninf
  | val (q : ℚ)
deriving DecidableEq, Repr

/-- `self.data.pm10 / self.data.pm2_5` on float columns whose raw entries
are numbers or missing: a missing operand propagates, and division by zero
follows numpy (`x / 0 = ±inf` for `x ≠ 0`, `0 / 0 = NaN`). -/
def divQ : Option ℚ → Option ℚ → Cell
  | Option.none, _ => .undef
  | _, Option.none => .undef
  | some a, some b =>
    if b = 0 then (if a > 0 then .pinf else if a < 0 then .ninf else .undef)
    else .val (a / b)

/-- The float comparison `c > x` of the masking step: NaN compares false,
`+inf` true, `-inf` false. -/
def Cell.gtQ (c : Cell) (x : ℚ) : Bool :=
  match c with
  | .undef => false
  | .pinf => true
  | .ninf => false
  | .val q => decide (q > x)

/-- A raw data row as far as calibration reads it. -/
structure CalRow where
  pm10 : Option ℚ
  pm2_5 : Option ℚ
deriving DecidableEq, Repr

/-- A row after `AQData.calibrate` added its two derived columns. -/
structure CalibratedRow where
  pm10 : Option ℚ
  pm2_5 : Option ℚ
  pm10_per_pm2_5 : Cell
  pm2_5_calib : Cell
deriving DecidableEq, Repr

/-- `AQData.calibrate` (src/aqstat/aqdata.py, lines 45-65) on the pm
columns.  Step 1 adds `pm10_per_pm2_5 = pm10 / pm2_5`; step 2 computes
`pm2_5_calib = pm2_5 / (-0.509 * log(pm10_per_pm2_5) + 1.2203)`, a
floating-point formula involving the transcendental `log`, abstracted here
as the parameter `f` applied to the ratio and the raw pm2_5 cell; step 3
(`self.data["pm2_5_calib"][self.data["pm10_per_pm2_5"] > 8] = None`)
discards the computed value on every row whose ratio compares `> 8`. -/
def calibrate (f : Cell → Option ℚ → Cell) (rows : List CalRow) :
    List CalibratedRow :=
  rows.map fun r =>
    let ratio := divQ r.pm10 r.pm2_5
    { pm10 := r.pm10
      pm2_5 := r.pm2_5
      pm10_per_pm2_5 := ratio
      pm2_5_calib := if Cell.gtQ ratio 8 then .undef else f ratio r.pm2_5 }

/-- C5: calibration discards `pm2_5_calib` exactly on the rows whose pm
ratio compares strictly greater than 8 — such rows end with an undefined
`pm2_5_calib` regardless of the computed value, all others keep the value
computed by the formula.  In particular the row `pm10=16, pm2_5=2` (ratio
exactly 8) keeps its computed value, and a row with ratio 9
(`pm10=18, pm2_5=2`) ends undefined for every formula `f`. -/
theorem calibrate_ratio_gate (f : Cell → Option ℚ → Cell) :
    (∀ rows r', r' ∈ calibrate f rows →
      (Cell.gtQ r'.pm10_per_pm2_5 8 = true → r'.pm2_5_calib = Cell.undef) ∧
      (Cell.gtQ r'.pm10_per_pm2_5 8 = false →
        r'.pm2_5_calib = f r'.pm10_per_pm2_5 r'.pm2_5)) ∧
    calibrate f [⟨some 16, some 2⟩]
      = [⟨some 16, some 2, Cell.val 8, f (Cell.val 8) (some 2)⟩] ∧
    calibrate f [⟨some 18, some 2⟩]
      = [⟨some 18, some 2, Cell.val 9, Cell.undef⟩] := by
  refine ⟨?_, ?_, ?_⟩
  · intro rows r' hr'
    rw [calibrate, List.mem_map] at hr'
    obtain ⟨r, hr, rfl⟩ := hr'
    constructor
    · intro hgt
      have h : Cell.gtQ (divQ r.pm10 r.pm2_5) 8 = true := hgt
      simp [h]
    · intro hgt
      have h : Cell.gtQ (divQ r.pm10 r.pm2_5) 8 = false := hgt
      simp [h]
  · have h16 : divQ (some 16) (some 2) = Cell.val 8 := by
      rw [divQ]
      norm_num
    have hg : Cell.gtQ (Cell.val 8) 8 = false := by
      norm_num [Cell.gtQ]
    simp [calibrate, h16, hg]
  · have h18 : divQ (some 18) (some 2) = Cell.val 9 := by
      rw [divQ]
      norm_num
    have hg : Cell.gtQ (Cell.val 9) 8 = true := by
      norm_num [Cell.gtQ]
    simp [calibrate, h18, hg]

/-- Witness for C5 at the constant-zero formula and the single-row table
with ratio 9. -/
theorem calibrate_ratio_gate_witness :
    (⟨some 18, some 2, Cell.val 9, Cell.undef⟩ : CalibratedRow).pm2_5_calib
      = Cell.undef := by
  have hc := (calibrate_ratio_gate (fun _ _ => Cell.val 0)).2.2
  have h := ((calibrate_ratio_gate (fun _ _ => Cell.val 0)).1
    [⟨some 18, some 2⟩] ⟨some 18, some 2, Cell.val 9, Cell.undef⟩
    (by rw [hc]; exact List.mem_singleton.2 rfl))
  exact h.1 (by norm_num [Cell.gtQ])

/-! ## Filename identity parsing (src/aqstat/parse.py) -/

/-- A calendar date as `datetime` carries it. -/
structure Date where
  year : Int
  month : Int
  day : Int
deriving DecidableEq, Repr

/-- A raised Python exception. -/
inductive PyErr where
  | typeError
  | valueError
deriving DecidableEq, Repr

/-- Python `str.split(sep)` with a one-character separator, acting on the
character list of the string (`"".split(sep)` gives one empty field). -/
def splitOnChar (sep : Char) : List Char → List (List Char)
  | [] => [[]]
  | c :: rest =>
    match splitOnChar sep rest with
    | [] => if c = sep then [[], []] else [[c]]
    | t :: ts => if c = sep then [] :: t :: ts else (c :: t) :: ts

/-- `os.path.basename`: the part after the last path separator. -/
def basename (s : List Char) : List Char :=
  (splitOnChar '/' s).getLastD s

/-- Rejoin dot-separated fields, for the root part of `os.path.splitext`. -/
def joinWithDot : List (List Char) → List Char
  | [] => []
  | [t] => t
  | t :: ts => t ++ '.' :: joinWithDot ts

/-- The root part of `os.path.splitext(...)[0]`: everything before the last
dot (for ordinary file names without leading-dot subtleties). -/
def splitextRoot (s : List Char) : List Char :=
  let parts := splitOnChar '.' s
  if parts.length ≤ 1 then s else joinWithDot parts.dropLast

/-- Decimal value of a nonempty all-digit token. -/
def natOfDigits (l : List Char) : Option Nat :=
  if l.isEmpty then Option.none
  else l.foldl (fun acc c =>
    match acc with
    | Option.none => Option.none
    | some n => if c.isDigit then some (n * 10 + (c.toNat - '0'.toNat))
                else Option.none) (some 0)

/-- Python `int(token)`: parse an optionally signed decimal string, raising
`ValueError` otherwise. -/
def pyInt (l : List Char) : Except PyErr Int :=
  match l with
  | '-' :: rest =>
    match natOfDigits rest with
    | some n => Except.ok (-(n : Int))
    | Option.none => Except.error PyErr.valueError
  | '+' :: rest =>
    match natOfDigits rest with
    | some n => Except.ok (n : Int)
    | Option.none => Except.error PyErr.valueError
  | _ =>
    match natOfDigits l with
    | some n => Except.ok (n : Int)
    | Option.none => Except.error PyErr.valueError

/-- `datetime(year=tokens[3], month=tokens[4], day=tokens[5])` as called on
src/aqstat/parse.py line 144: the split tokens are strings, and CPython's
`datetime` constructor requires integer arguments, so this call raises
`TypeError` unconditionally. -/
def datetimeOfStrTokens (_y _m _d : List Char) : Except PyErr Date :=
  Except.error PyErr.typeError

/-- Days in a month of the proleptic Gregorian calendar, as `datetime`
validates them. -/
def daysInMonth (y m : Int) : Int :=
  if m = 2 then
    if (y % 4 = 0 ∧ ¬(y % 100 = 0)) ∨ y % 400 = 0 then 29 else 28
  else if m = 4 ∨ m = 6 ∨ m = 9 ∨ m = 11 then 30
  else 31

/-- A token of plain digits with length between 1 and `maxLen`. -/
def isDigits (l : List Char) (maxLen : Nat) : Bool :=
  decide (1 ≤ l.length) && decide (l.length ≤ maxLen) && l.all Char.isDigit

/-- `datetime.strptime(tokens[0], "%Y-%m-%d")` (src/aqstat/parse.py line
171): `%Y` matches up to four digits, `%m` and `%d` up to two, the token
must be consumed entirely and the fields must form a valid calendar date;
anything else raises `ValueError`. -/
def strptimeYMD (s : List Char) : Except PyErr Date :=
  match splitOnChar '-' s with
  | [ys, ms, ds] =>
    if isDigits ys 4 && isDigits ms 2 && isDigits ds 2 then
      let y : Int := ((natOfDigits ys).getD 0 : Nat)
      let m : Int := ((natOfDigits ms).getD 0 : Nat)
      let d : Int := ((natOfDigits ds).getD 0 : Nat)
      if 1 ≤ y ∧ 1 ≤ m ∧ m ≤ 12 ∧ 1 ≤ d ∧ d ≤ daysInMonth y m then
        Except.ok ⟨y, m, d⟩
      else Except.error PyErr.valueError
    else Except.error PyErr.valueError
  | _ => Except.error PyErr.valueError

/-- `parse_metadata_from_madavi_csv_filename` (src/aqstat/parse.py, lines
128-148): split the extension-stripped basename on `-`, require six tokens
starting with `data`, `esp8266`; then `int(tokens[2])` and the
`datetime(...)` call of line 144 with string tokens. -/
def parse_metadata_from_madavi_csv_filename (filename : String) :
    Except PyErr (Option Int × Option Date) :=
  let tokens := splitOnChar '-' (splitextRoot (basename filename.toList))
  if tokens.length = 6 ∧ tokens.getD 0 [] = "data".toList ∧
      tokens.getD 1 [] = "esp8266".toList
  then do
    let chip_id ← pyInt (tokens.getD 2 [])
    let date ← datetimeOfStrTokens (tokens.getD 3 []) (tokens.getD 4 [])
      (tokens.getD 5 [])
    return (some chip_id, some date)
  else Except.ok (Option.none, Option.none)

/-- `parse_metadata_from_sensorcommunity_csv_filename` (src/aqstat/parse.py,
lines 151-179): split the extension-stripped basename on `_`, require four
tokens with `sensor` third; `strptime` is guarded by
`try/except ValueError` yielding a null date on failure, while
`int(tokens[3])` is unguarded. -/
def parse_metadata_from_sensorcommunity_csv_filename (filename : String) :
    Except PyErr (Option Int × Option String × Option Date) :=
  let tokens := splitOnChar '_' (splitextRoot (basename filename.toList))
  if tokens.length = 4 ∧ tokens.getD 2 [] = "sensor".toList then do
    let date : Option Date :=
      match strptimeYMD (tokens.getD 0 []) with
      | Except.ok d => some d
      | Except.error _ => Option.none
    let sensor_id ← pyInt (tokens.getD 3 [])
    return (some sensor_id, some (String.mk (tokens.getD 1 [])), date)
  else Except.ok (Option.none, Option.none, Option.none)

/-- `parse_metadata_from_filename` (src/aqstat/parse.py, lines 182-210):
try the madavi grammar first; if it yields no chip id, fall back to the
sensor.community grammar. -/
def parse_metadata_from_filename (filename : String) :
    Except PyErr (Option Int × Option Int × Option String × Option Date) := do
  let (chip_id, date) ← parse_metadata_from_madavi_csv_filename filename
  match chip_id with
  | some c => return (some c, Option.none, Option.none, date)
  | Option.none =>
    let (sensor_id, sensor_type, date2) ←
      parse_metadata_from_sensorcommunity_csv_filename filename
    return (Option.none, sensor_id, sensor_type, date2)

/-- C9: evaluation of filename identity parsing at the three claimed
inputs.  `"data-esp8266-11797099-2020-01-10.csv"` raises `TypeError`
instead of returning device id 11797099, because line 144 of
src/aqstat/parse.py hands the split string tokens to
`datetime(year=..., month=..., day=...)`, which requires integers.  The
sensor.community name and the unparseable name return exactly as the claim
says. -/
theorem parse_filename_eval :
    parse_metadata_from_filename "data-esp8266-11797099-2020-01-10.csv"
      = Except.error PyErr.typeError ∧
    parse_metadata_from_filename "2020-01-12_sds011_sensor_35233.csv"
      = Except.ok (Option.none, some 35233, some "sds011", some ⟨2020, 1, 12⟩) ∧
    parse_metadata_from_filename "garbage.csv"
      = Except.ok (Option.none, Option.none, Option.none, Option.none) := by
  refine ⟨rfl, rfl, rfl⟩

end AQStat
